import Mathlib

/-!
Verification development for the collection-path reindexing, tab save-context
synchronization, inherited-property propagation, import-mapper and
infra-config subsystems of the repository.

The TypeScript sources are shallowly embedded: the shared mutable tab
registry (reached through `getService(RESTTabService)` /
`getService(GQLTabService)` in the source) is made an explicit
`List Tab` parameter, and each mutating routine becomes a function from the
tab list to the updated tab list.  JavaScript strings are Lean `String`s,
JavaScript numbers used as indices are Lean `Int`s, and a JavaScript
`Map<number, number>` built by insertion and consumed through
`has`/`get`/`delete` is an association list `List (Int × Int)` with unique
keys (insertion order preserved).
-/

/-! ## Path helpers (JS string operations used by the source) -/

/-- Splitting a list of characters at `'/'`, mirroring JavaScript
`s.split("/")`: the empty string yields `[""]`, and separators at the ends
produce empty segments. -/
def splitSlashChars : List Char → List (List Char)
  | [] => [[]]
  | c :: rest =>
    match splitSlashChars rest with
    | [] => [[c]]
    | g :: gs => if c = '/' then [] :: g :: gs else (c :: g) :: gs

/-- JavaScript `s.split("/")` on a Lean `String`. -/
def splitSlash (s : String) : List String :=
  (splitSlashChars s.data).map (fun l => { data := l })

/-- JavaScript `a.startsWith(b)`. -/
def strStartsWith (a b : String) : Bool :=
  b.data.isPrefixOf a.data

/-- `requestID.split("/").slice(0, -1).join("/")` from the source: the
collection-identifier prefix of a stored request identifier. -/
def collectionIDOfRequestID (rid : String) : String :=
  String.intercalate "/" ((splitSlash rid).dropLast)

/-- `requestID.split("/").slice(-1)[0]` from the source: the trailing
segment of a stored request identifier (the split list is never empty). -/
def lastSegmentOf (rid : String) : String :=
  ((splitSlash rid).getLast?).getD ""

/-- Leading decimal digits of a character list as a number, if any. -/
def digitsPrefixVal (l : List Char) : Option Nat :=
  let ds := l.takeWhile (fun c => c.isDigit)
  if ds = [] then none
  else some (ds.foldl (fun acc c => acc * 10 + (c.toNat - '0'.toNat)) 0)

/-- JavaScript `parseInt` (radix 10) as used on path segments: parses an
optional sign and leading digits; `none` models `NaN`. -/
def parseIntJS (s : String) : Option Int :=
  match s.data with
  | '-' :: rest => (digitsPrefixVal rest).map (fun n => -(n : Int))
  | l => (digitsPrefixVal l).map (fun n => (n : Int))

/-! ## Association-list maps (JS `Map`) -/

/-- `map.has(k)` for a `Map<number, number>` embedded as an association
list. -/
def hasKey (m : List (Int × Int)) (k : Int) : Bool :=
  m.any (fun p => p.1 == k)

/-- `map.get(k)` for a `Map<number, number>`. -/
def lookupKey (m : List (Int × Int)) (k : Int) : Option Int :=
  (m.find? (fun p => p.1 == k)).map (fun p => p.2)

/-- `map.delete(k)` for a `Map<number, number>`. -/
def eraseKey (m : List (Int × Int)) (k : Int) : List (Int × Int) :=
  m.filter (fun p => p.1 != k)

/-- `map.has(k)` for a `Map<string, string>`. -/
def hasKeyStr (m : List (String × String)) (k : String) : Bool :=
  m.any (fun p => p.1 == k)

/-- `map.get(k)` for a `Map<string, string>`. -/
def lookupKeyStr (m : List (String × String)) (k : String) : Option String :=
  (m.find? (fun p => p.1 == k)).map (fun p => p.2)

/-! ## Affected-Index Calculator -/

/-- The integers `lo, lo + 1, ...` of the given count. -/
def rangeIntLen (lo : Int) : Nat → List Int
  | 0 => []
  | n + 1 => lo :: rangeIntLen (lo + 1) n

/-- The inclusive integer range `[lo, hi]` (empty when `hi < lo`). -/
def rangeInt (lo hi : Int) : List Int :=
  rangeIntLen lo (hi + 1 - lo).toNat

/-- Modelled from the spec: the Affected-Index Calculator
`getAffectedIndexes` (imported by the resolvers from
`./affectedIndex`, a file not included in the excerpt).  Spec §4.1:
the produced mapping is a contiguous shift over the inclusive range
`[min(lastIndex, newIndex), max(lastIndex, newIndex)]`; the moved element
maps `lastIndex → newIndex` and every other element in the range shifts by
one position toward the vacated slot.  The §8 end-to-end scenario
(`lastIndex = 3, newIndex = 1` gives `{1→2, 2→3, 3→1}`) fixes the shape;
the moved element's entry is inserted last. -/
def getAffectedIndexes (lastIndex newIndex : Int) : List (Int × Int) :=
  let shifted :=
    if lastIndex < newIndex then
      (rangeInt (lastIndex + 1) newIndex).map (fun i => (i, i - 1))
    else
      (rangeInt newIndex (lastIndex - 1)).map (fun i => (i, i + 1))
  shifted ++ [(lastIndex, newIndex)]

/-- The affected-index map as built by both resolvers after the
destination adjustment: `getAffectedIndexes(lastIndex, newIndex === -1 ?
length! : newIndex)`, followed by `affectedIndexes.delete(lastIndex)` when
`newIndex === -1`.  When `length` is omitted on deletion (`length!` is
`undefined` in JS), the `NaN` arithmetic produces no shifted entries and
the lone `lastIndex` entry is deleted, leaving an empty map. -/
def buildAffectedIndexes (lastIndex newIndex : Int) (length? : Option Int) :
    List (Int × Int) :=
  if newIndex = -1 then
    match length? with
    | some l => eraseKey (getAffectedIndexes lastIndex l) lastIndex
    | none => []
  else getAffectedIndexes lastIndex newIndex

/-- The destination adjustment shared by both resolvers:
`if (newIndex > lastIndex) newIndex--`. -/
def adjustNewIndex (lastIndex newIndex : Int) : Int :=
  if newIndex > lastIndex then newIndex - 1 else newIndex

/-! ## Tabs and save contexts

The save context of an open editor tab
(`tab.document.saveContext`), restricted to the variants and fields the
embedded routines read: `"user-collection"` carries `folderPath` and
`requestIndex`; `"workspace-user-collection"` carries `collectionID` and
`requestID`; `"team-collection"` carries an optional `collectionID` and a
`requestID`. -/

inductive SaveContext where
  | userCollection (folderPath : String) (requestIndex : Int)
  | workspaceUserCollection (collectionID : String) (requestID : String)
  | teamCollection (collectionID : Option String) (requestID : String)
deriving DecidableEq

/-- A REST header / inherited-header value: key, value, active flag
(`HoppRESTHeader` from the data package). -/
structure HoppRESTHeader where
  key : String
  value : String
  active : Bool
deriving DecidableEq

/-- The REST auth tagged union (`HoppRESTAuth` from the data package),
restricted to the variants the embedded code constructs. -/
inductive HoppRESTAuth where
  | authNone (authActive : Bool)
  | basic (authActive : Bool) (username password : String)
  | oauth2 (authActive : Bool)
      (accessTokenURL authURL clientID oidcDiscoveryURL scope token : String)
  | bearer (authActive : Bool) (token : String)
  | inheritAuth (authActive : Bool)
deriving DecidableEq

/-- The `auth` component of a cached `HoppInheritedProperty` snapshot:
the ancestor path that contributed the resolved auth plus the resolved
auth itself. -/
structure InheritedAuth where
  parentID : String
  parentName : String
  inheritedAuth : HoppRESTAuth
deriving DecidableEq

/-- One entry of the cached inherited-header list, tagged with the
ancestor path (`parentID`) that contributed it.  The `inheritedHeader`
payload is optional because the header-refresh pass can write `undefined`
into it. -/
structure InheritedHeaderEntry where
  parentID : String
  parentName : String
  inheritedHeader : Option HoppRESTHeader
deriving DecidableEq

/-- The cached inherited-properties snapshot attached to a tab document
(`HoppInheritedProperty`). -/
structure HoppInheritedProperty where
  auth : InheritedAuth
  headers : List InheritedHeaderEntry
deriving DecidableEq

/-- An open editor tab, restricted to the document fields the embedded
routines read or write: `saveContext`, `isDirty`, and the cached
`inheritedProperties` snapshot. -/
structure Tab where
  saveContext : Option SaveContext
  isDirty : Bool
  inheritedProperties : Option HoppInheritedProperty
deriving DecidableEq

/-! ## Reorder Resolver: request-level (`resolveSaveContextOnRequestReorder`) -/

/-- The tab-selection predicate passed to `getTabsRefTo` in
`resolveSaveContextOnRequestReorder`: personal (`"user-collection"`)
contexts match on equal `folderPath` and a `requestIndex` key of the
affected map; workspace (`"workspace-user-collection"`) contexts match on
`collectionID` equal to the folder path and the parsed trailing segment of
`requestID` being a key of the affected map. -/
def reqReorderMatches (folderPath : String) (m : List (Int × Int))
    (t : Tab) : Bool :=
  match t.saveContext with
  | some (.userCollection fp idx) => fp == folderPath && hasKey m idx
  | some (.workspaceUserCollection cid rid) =>
    cid == folderPath &&
      (match parseIntJS (lastSegmentOf rid) with
       | some n => hasKey m n
       | none => false)
  | _ => false

/-- The selection-plus-mutation of `resolveSaveContextOnRequestReorder`
applied to one tab: the mutation loop in the source only handles the
`"user-collection"` variant (selected `"workspace-user-collection"` tabs
are left as they are). -/
def reqReorderStep (folderPath : String) (m : List (Int × Int)) (t : Tab) :
    Tab :=
  if reqReorderMatches folderPath m t then
    match t.saveContext with
    | some (.userCollection fp idx) =>
      (match lookupKey m idx with
       | some ni => { t with saveContext := some (.userCollection fp ni) }
       | none => t)
    | _ => t
  else t

/-- The body of `resolveSaveContextOnRequestReorder` after the
destination adjustment and the no-op short circuit: build the affected
map and run the selection and mutation over the tab registry. -/
def resolveSaveContextOnRequestReorderCore (lastIndex : Int)
    (folderPath : String) (newIndex : Int) (length? : Option Int)
    (tabs : List Tab) : List Tab :=
  tabs.map (reqReorderStep folderPath
    (buildAffectedIndexes lastIndex newIndex length?))

/-- `resolveSaveContextOnRequestReorder` (request.ts): adjusts the
destination index, short-circuits when nothing moves, and otherwise runs
the core on the adjusted index. -/
def resolveSaveContextOnRequestReorder (lastIndex : Int)
    (folderPath : String) (newIndex0 : Int) (length? : Option Int)
    (tabs : List Tab) : List Tab :=
  let newIndex := adjustNewIndex lastIndex newIndex0
  if lastIndex = newIndex then tabs
  else resolveSaveContextOnRequestReorderCore lastIndex folderPath newIndex
    length? tabs

/-! ## Reorder Resolver: collection-level
(`resolveSaveContextOnCollectionReorder`) and save-context teardown -/

/-- The reorder mode argument: `"remove"` (deletion) or `"drop"`
(drag-and-drop relocation). -/
inductive ReorderMode where
  | remove
  | drop
deriving DecidableEq

/-- The tab-selection predicate of `resetSaveContextForAffectedRequests`:
a raw `startsWith` comparison of the tab's save-context path (personal
`folderPath`, or the collection-identifier prefix of a workspace
`requestID`) against the deleted path. -/
def resetMatches (folderPath : String) (t : Tab) : Bool :=
  match t.saveContext with
  | some (.userCollection p _) => strStartsWith p folderPath
  | some (.workspaceUserCollection _ rid) =>
    strStartsWith (collectionIDOfRequestID rid) folderPath
  | _ => false

/-- The teardown applied to one selected tab: save context cleared to
`null`, dirty flag set. -/
def resetTabStep (folderPath : String) (t : Tab) : Tab :=
  if resetMatches folderPath t then
    { t with saveContext := none, isDirty := true }
  else t

/-- `resetSaveContextForAffectedRequests`: clears the save context and
sets the dirty flag of every tab whose save-context path starts with the
given (deleted) path. -/
def resetSaveContextForAffectedRequests (folderPath : String)
    (tabs : List Tab) : List Tab :=
  tabs.map (resetTabStep folderPath)

/-- The path-level affected mapping built by the collection resolver:
every old/new index pair prefixed with the folder path when it is
non-empty (JS string truthiness), bare indices otherwise. -/
def affectedPathsOf (folderPath : String) (m : List (Int × Int)) :
    List (String × String) :=
  m.map (fun p =>
    if folderPath ≠ "" then
      (folderPath ++ "/" ++ toString p.1, folderPath ++ "/" ++ toString p.2)
    else (toString p.1, toString p.2))

/-- The tab-selection predicate passed to `getTabsRefTo` in
`resolveSaveContextOnCollectionReorder`: personal contexts match when
their `folderPath` is a key of the path-level map; workspace contexts
match when the collection-identifier prefix of their `requestID` is. -/
def collReorderMatches (aff : List (String × String)) (t : Tab) : Bool :=
  match t.saveContext with
  | some (.userCollection fp _) => hasKeyStr aff fp
  | some (.workspaceUserCollection _ rid) =>
    hasKeyStr aff (collectionIDOfRequestID rid)
  | _ => false

/-- The reindexing mutation loop of
`resolveSaveContextOnCollectionReorder`: matched personal tabs get their
`folderPath` replaced by the mapped path; matched workspace tabs get
their `requestID` rebuilt from the mapped collection identifier and the
original trailing segment (the `collectionID` field itself is left as it
was). -/
def collReorderStep (aff : List (String × String)) (t : Tab) : Tab :=
  if collReorderMatches aff t then
    match t.saveContext with
    | some (.userCollection fp idx) =>
      (match lookupKeyStr aff fp with
       | some np => { t with saveContext := some (.userCollection np idx) }
       | none => t)
    | some (.workspaceUserCollection cid rid) =>
      (match lookupKeyStr aff (collectionIDOfRequestID rid) with
       | some nc =>
         let newRequestID := nc ++ "/" ++ lastSegmentOf rid
         { t with saveContext := some (.workspaceUserCollection cid newRequestID) }
       | none => t)
    | _ => t
  else t

/-- The reindexing pass over the whole tab registry. -/
def collReorderReindex (aff : List (String × String)) (tabs : List Tab) :
    List Tab :=
  tabs.map (collReorderStep aff)

/-- The path of the deleted node as computed at the teardown call site:
``folderPath ? `${folderPath}/${lastIndex}` : lastIndex.toString()``. -/
def deletedPathOf (folderPath : String) (lastIndex : Int) : String :=
  if folderPath ≠ "" then folderPath ++ "/" ++ toString lastIndex
  else toString lastIndex

/-- `resolveSaveContextOnCollectionReorder` (part_000): adjusts the
destination index, short-circuits when nothing moves, builds the affected
map (deleting the `lastIndex` entry on removal), tears down the save
contexts under the deleted path when `newIndex === -1` and the mode is
`"remove"`, and then reindexes the remaining matching tabs through the
path-level map. -/
def resolveSaveContextOnCollectionReorderCore (lastIndex newIndex : Int)
    (folderPath : String) (length? : Option Int) (mode : ReorderMode)
    (tabs : List Tab) : List Tab :=
  let m := buildAffectedIndexes lastIndex newIndex length?
  let tabs1 :=
    if newIndex = -1 ∧ mode = ReorderMode.remove then
      resetSaveContextForAffectedRequests
        (deletedPathOf folderPath lastIndex) tabs
    else tabs
  collReorderReindex (affectedPathsOf folderPath m) tabs1

/-- `resolveSaveContextOnCollectionReorder` with the destination
adjustment and the no-op short circuit in front of the core. -/
def resolveSaveContextOnCollectionReorder (lastIndex newIndex0 : Int)
    (folderPath : String) (length? : Option Int) (mode : ReorderMode)
    (tabs : List Tab) : List Tab :=
  let newIndex := adjustNewIndex lastIndex newIndex0
  if lastIndex = newIndex then tabs
  else resolveSaveContextOnCollectionReorderCore lastIndex newIndex
    folderPath length? mode tabs

/-! ## Inherited-Property Propagator
(`updateInheritedPropertiesForAffectedRequests`) -/

/-- The workspace kind argument of the propagator. -/
inductive Workspace where
  | personal
  | team
deriving DecidableEq

/-- `folderPathCloseToSaveContext` helper: the number of path segments of
`p` that agree position-by-position (from the root) with the segments of
`saveCtx`.  Positions past the end of `saveCtx` compare unequal
(JS `undefined`). -/
def matchCount (p saveCtx : String) : Nat :=
  let pa := splitSlash p
  let ca := splitSlash saveCtx
  ((List.range pa.length).filter (fun i => pa.get? i == ca.get? i)).length

/-- `folderPathCloseToSaveContext` (part_000): returns whichever of the
cached inherited-auth source path and the incoming path is closer to the
save-context path, by position-by-position segment-match count; an absent
or empty cached path (JS falsiness) and ties both yield the incoming
path. -/
def folderPathCloseToSaveContext (folderPathCurrent : Option String)
    (newFolderPath saveContextPath : String) : String :=
  match folderPathCurrent with
  | none => newFolderPath
  | some c =>
    if c = "" then newFolderPath
    else if matchCount c saveContextPath > matchCount newFolderPath saveContextPath
    then c
    else newFolderPath

/-- The cached inherited-auth source path of a tab:
`tab.document.inheritedProperties?.auth.parentID`. -/
def cachedAuthParent (t : Tab) : Option String :=
  t.inheritedProperties.map (fun p => p.auth.parentID)

/-- The save-context path the propagator compares against, per workspace
kind: the personal `folderPath`, the collection-identifier prefix of a
workspace `requestID`, or the team `collectionID`. -/
def ctxPathFor (ws : Workspace) (t : Tab) : Option String :=
  match ws, t.saveContext with
  | .personal, some (.userCollection fp _) => some fp
  | .personal, some (.workspaceUserCollection _ rid) =>
    some (collectionIDOfRequestID rid)
  | .team, some (.teamCollection (some cid) _) => some cid
  | _, _ => none

/-- The tab-selection predicate passed to `getTabsRefTo` by the
propagator (nesting under the mutated path by raw `startsWith`). -/
def propagatorDomain (ws : Workspace) (path : String) (t : Tab) : Bool :=
  match ctxPathFor ws t with
  | some p => strStartsWith p path
  | none => false

/-- The auth filter applied to the selected tabs
(`tabsEffectedByAuth`): the save-context path must start with the mutated
path and the mutated path must win the closeness comparison against the
currently cached inherited-auth source path. -/
def authFilter (ws : Workspace) (path : String) (t : Tab) : Bool :=
  match ctxPathFor ws t with
  | some p =>
    strStartsWith p path &&
      path == folderPathCloseToSaveContext (cachedAuthParent t) path p
  | none => false

/-- A tab is auth-affected when it is both selected (`getTabsRefTo`) and
passes the auth filter. -/
def authEffected (ws : Workspace) (path : String) (t : Tab) : Bool :=
  propagatorDomain ws path t && authFilter ws path t

/-- The header filter applied to the selected tabs
(`tabsEffectedByHeaders`): the cached inherited-header list contains an
entry tagged with the mutated path. -/
def headerFilter (path : String) (t : Tab) : Bool :=
  match t.inheritedProperties with
  | some p => p.headers.any (fun h => h.parentID == path)
  | none => false

/-- A tab is header-affected when it is both selected and passes the
header filter. -/
def headerEffected (ws : Workspace) (path : String) (t : Tab) : Bool :=
  propagatorDomain ws path t && headerFilter path t

/-- The per-entry refresh of the header loop: an entry tagged with the
mutated path has its `inheritedHeader` payload replaced by the entry of
the new header list whose payload key matches (JS `===` on
possibly-`undefined` keys); other entries are returned as they are. -/
def refreshHeaderEntry (path : String) (newProps : HoppInheritedProperty)
    (h : InheritedHeaderEntry) : InheritedHeaderEntry :=
  if h.parentID == path then
    let found := newProps.headers.find? (fun nh =>
      nh.inheritedHeader.map (fun x => x.key) ==
        h.inheritedHeader.map (fun x => x.key))
    { h with inheritedHeader := found.bind (fun nh => nh.inheritedHeader) }
  else h

/-- The header-loop body applied to one tab: its (current)
inherited-properties object is replaced by a copy whose `headers` list is
mapped through `refreshHeaderEntry`.  A tab selected into the header loop
always has an inherited-properties object. -/
def applyHeaderRefresh (path : String) (newProps : HoppInheritedProperty)
    (t : Tab) : Tab :=
  match t.inheritedProperties with
  | some p =>
    let headers := p.headers.map (refreshHeaderEntry path newProps)
    { t with inheritedProperties := some { p with headers := headers } }
  | none => t

/-- `updateInheritedPropertiesForAffectedRequests` (part_000): both
filters are evaluated on the pre-mutation tab state; the auth loop then
replaces the whole inherited-properties object of the auth-affected tabs
with the new snapshot, and the header loop afterwards refreshes (on the
possibly already replaced object, since the loops run over live refs) the
entries tagged with the mutated path.  The `type` argument of the source
(`"rest" | "graphql"`) only chooses which tab registry the service
locator returns and is represented by the explicit `tabs` parameter. -/
def propagateStep (path : String)
    (inheritedProperties : HoppInheritedProperty) (ws : Workspace)
    (t : Tab) : Tab :=
  let aSel := authEffected ws path t
  let hSel := headerEffected ws path t
  let t1 :=
    if aSel then { t with inheritedProperties := some inheritedProperties }
    else t
  if hSel then applyHeaderRefresh path inheritedProperties t1 else t1

/-- The propagator pass over the whole tab registry. -/
def updateInheritedPropertiesForAffectedRequests (path : String)
    (inheritedProperties : HoppInheritedProperty) (ws : Workspace)
    (tabs : List Tab) : List Tab :=
  tabs.map (propagateStep path inheritedProperties ws)

/-! ## Import Mapper (insomnia.ts)

`replaceInsomniaTemplating` applies the global regular expression
`\{\x7b _\.([^\x7d]+) \}\x7d → <<$1>>` to a string: each non-overlapping
occurrence of an opening `\x7b\x7b _.`, a non-empty run of
non-`\x7d` characters ending just before a space, and a closing
` \x7d\x7d` is rewritten to the captured run between `<<` and `>>`.
The scanner below walks the characters left to right exactly as the
regex engine does. -/

/-- One left-to-right scan of the templating rewrite, with fuel (each
step consumes at least one character, so `fuel = length` suffices). -/
def replaceTemplatingAux (fuel : Nat) (l : List Char) : List Char :=
  match fuel, l with
  | 0, rest => rest
  | _ + 1, [] => []
  | f + 1, '{' :: '{' :: ' ' :: '_' :: '.' :: body =>
    let t := body.takeWhile (fun c => c ≠ '}')
    let r := body.drop t.length
    if t.length ≥ 2 ∧ t.getLast? = some ' ' ∧ r.take 2 = ['}', '}'] then
      ('<' :: '<' :: t.dropLast) ++ '>' :: '>' :: replaceTemplatingAux f (r.drop 2)
    else '{' :: replaceTemplatingAux f ('{' :: ' ' :: '_' :: '.' :: body)
  | f + 1, c :: rest => c :: replaceTemplatingAux f rest

/-- `replaceInsomniaTemplating` (insomniaEnv.ts), also used by the
Insomnia importer through `replaceVarTemplating`. -/
def replaceInsomniaTemplating (expression : String) : String :=
  { data := replaceTemplatingAux expression.data.length expression.data }

/-- `replaceVarTemplating` (insomnia.ts) is an alias for
`replaceInsomniaTemplating`. -/
def replaceVarTemplating (expression : String) : String :=
  replaceInsomniaTemplating expression

/-- The corrected Insomnia auth union of the importer (`InsoReqAuth`),
plus a catch-all for every other `type` tag (which the dispatch maps to
no auth). -/
inductive InsoReqAuth where
  | basic (disabled : Option Bool) (username password : Option String)
  | oauth2 (disabled : Option Bool)
      (accessTokenUrl authorizationUrl clientId scope : Option String)
  | bearer (disabled : Option Bool) (token : Option String)
  | otherAuth
deriving DecidableEq

/-- A foreign header row (`req.headers` entries). -/
structure InsoHeader where
  name : String
  value : String
  disabled : Option Bool
deriving DecidableEq

/-- A foreign query-parameter or form-field row. -/
structure InsoParam where
  name : String
  value : Option String
  disabled : Option Bool
deriving DecidableEq

/-- A foreign request body: either a raw string or a structured object
with `mimeType`, `text` and `params` fields. -/
inductive InsoBody where
  | raw (s : String)
  | structured (mimeType : Option String) (text : Option String)
      (params : Option (List InsoParam))
deriving DecidableEq

/-- A foreign resource (`ImportRequest`), restricted to the fields the
mapper reads.  `rtype` embeds the `_type` tag and `id` the `_id`
identifier. -/
structure InsomniaResource where
  rtype : String
  id : String
  parentId : Option String
  name : Option String
  authentication : Option InsoReqAuth
  method : Option String
  url : Option String
  headers : Option (List InsoHeader)
  parameters : Option (List InsoParam)
  body : Option InsoBody
deriving DecidableEq

/-- A parsed foreign document (`InsomniaDoc`): `doc.data.resources`. -/
structure InsomniaDoc where
  resources : List InsomniaResource
deriving DecidableEq

/-- A REST query parameter (`HoppRESTParam`). -/
structure HoppRESTParam where
  key : String
  value : String
  active : Bool
deriving DecidableEq

/-- One multipart form-data entry of a mapped body. -/
structure FormDataEntry where
  key : String
  value : String
  active : Bool
  isFile : Bool
deriving DecidableEq

/-- The mapped request body (`HoppRESTReqBody`): the
`{contentType: null, body: null}` fallback, a textual body with a content
type, a multipart form, or the newline-joined url-encoded text. -/
inductive HoppRESTReqBody where
  | nullBody
  | textBody (contentType : String) (body : String)
  | multipart (body : List FormDataEntry)
  | urlencoded (body : String)
deriving DecidableEq

/-- A mapped internal request (`makeRESTRequest` fields set by the
importer). -/
structure HoppRESTRequest where
  name : String
  method : String
  endpoint : String
  auth : HoppRESTAuth
  body : HoppRESTReqBody
  headers : List HoppRESTHeader
  params : List HoppRESTParam
  preRequestScript : String
  testScript : String
deriving DecidableEq

/-- A mapped internal collection (`makeCollection` fields set by the
importer): name, child collections, requests, auth and headers. -/
inductive HoppCollection where
  | mk (name : String) (folders : List HoppCollection)
      (requests : List HoppRESTRequest) (auth : HoppRESTAuth)
      (headers : List HoppRESTHeader)

/-- `getFoldersIn`: the resources whose `_type` is `request_group` or
`workspace` and whose `parentId` equals the given folder's `_id` (or
`null` at the root). -/
def getFoldersIn (folder : Option InsomniaResource)
    (resources : List InsomniaResource) : List InsomniaResource :=
  resources.filter (fun x =>
    (x.rtype == "request_group" || x.rtype == "workspace") &&
      x.parentId == folder.map (fun f => f.id))

/-- `getRequestsIn`: the resources whose `_type` is `request` and whose
`parentId` equals the given folder's `_id` (or `null` at the root). -/
def getRequestsIn (folder : Option InsomniaResource)
    (resources : List InsomniaResource) : List InsomniaResource :=
  resources.filter (fun x =>
    x.rtype == "request" && x.parentId == folder.map (fun f => f.id))

/-- `getHoppReqAuth`: closed tag-based dispatch over the foreign auth
union; unset fields default to the empty string. -/
def getHoppReqAuth (req : InsomniaResource) : HoppRESTAuth :=
  match req.authentication with
  | none => .authNone true
  | some auth =>
    match auth with
    | .basic _ u p =>
      .basic true (replaceVarTemplating (u.getD ""))
        (replaceVarTemplating (p.getD ""))
    | .oauth2 d atUrl auUrl ci sc =>
      .oauth2 (!(d.getD false)) (replaceVarTemplating (atUrl.getD ""))
        (replaceVarTemplating (auUrl.getD ""))
        (replaceVarTemplating (ci.getD "")) ""
        (replaceVarTemplating (sc.getD "")) ""
    | .bearer _ tok => .bearer true (replaceVarTemplating (tok.getD ""))
    | .otherAuth => .authNone true

/-- The recognized textual content types of the data package
(`Object.keys(knownContentTypes)`); external constant, none of the
claims depends on its exact contents. -/
def knownContentTypes : List String :=
  ["application/json", "application/ld+json", "application/hal+json",
   "application/vnd.api+json", "application/xml",
   "application/x-www-form-urlencoded", "multipart/form-data",
   "text/html", "text/plain"]

/-- `getHoppReqBody`: dispatch on the declared MIME type, with
`{contentType: null, body: null}` as the fallback for a missing body and
for unrecognized MIME types. -/
def getHoppReqBody (req : InsomniaResource) : HoppRESTReqBody :=
  match req.body with
  | none => .nullBody
  | some (.raw s) =>
    let ct := ((req.headers.getD []).find? (fun h =>
      h.name.toLower == "content-type")).map (fun h => h.value)
    .textBody (ct.getD "text/plain") (replaceVarTemplating s)
  | some (.structured mime text params) =>
    if mime == some "multipart/form-data" then
      .multipart ((params.getD []).map (fun p =>
        { key := replaceVarTemplating p.name
          value := replaceVarTemplating (p.value.getD "")
          active := !(p.disabled.getD false)
          isFile := false }))
    else if mime == some "application/x-www-form-urlencoded" then
      .urlencoded (match params with
        | some ps =>
          String.intercalate "\n" ((ps.filter (fun p =>
            !(p.disabled.getD false))).map (fun p =>
              replaceVarTemplating p.name ++ ": " ++
                replaceVarTemplating (p.value.getD "")))
        | none => "")
    else if knownContentTypes.contains (mime.getD "text/plain") then
      .textBody (mime.getD "text/plain") (replaceVarTemplating (text.getD ""))
    else .nullBody

/-- `getHoppReqHeaders`: header rows mapped to key/value/active triples
(`active: !header.disabled`). -/
def getHoppReqHeaders (req : InsomniaResource) : List HoppRESTHeader :=
  (req.headers.getD []).map (fun h =>
    { key := replaceVarTemplating h.name
      value := replaceVarTemplating h.value
      active := !(h.disabled.getD false) })

/-- `getHoppReqParams`: query-parameter rows mapped to key/value/active
triples. -/
def getHoppReqParams (req : InsomniaResource) : List HoppRESTParam :=
  (req.parameters.getD []).map (fun p =>
    { key := replaceVarTemplating p.name
      value := replaceVarTemplating (p.value.getD "")
      active := !(p.disabled.getD false) })

/-- `getHoppRequest`: one foreign request mapped to an internal request. -/
def getHoppRequest (req : InsomniaResource) : HoppRESTRequest :=
  { name := req.name.getD "Untitled Request"
    method := (req.method.map String.toUpper).getD "GET"
    endpoint := replaceVarTemplating (req.url.getD "")
    auth := getHoppReqAuth req
    body := getHoppReqBody req
    headers := getHoppReqHeaders req
    params := getHoppReqParams req
    preRequestScript := ""
    testScript := "" }

/-- `getHoppFolder`: a foreign folder resource rebuilt as an internal
collection, recursing into the child folders discovered by
parent-identifier equality.  The TypeScript recursion has no termination
guard (a cyclic `parentId` chain would diverge); the fuel bounds the
recursion depth and is never exhausted on acyclic input when it starts at
the resource count. -/
def getHoppFolder (fuel : Nat) (folderRes : InsomniaResource)
    (resources : List InsomniaResource) : HoppCollection :=
  match fuel with
  | 0 => .mk (folderRes.name.getD "") [] [] (.inheritAuth true) []
  | f + 1 =>
    .mk (folderRes.name.getD "")
      ((getFoldersIn (some folderRes) resources).map (fun fr =>
        getHoppFolder f fr resources))
      ((getRequestsIn (some folderRes) resources).map getHoppRequest)
      (.inheritAuth true) []

/-- `getHoppCollections`: every document's root folders, each rebuilt as
an internal collection tree. -/
def getHoppCollections (docs : List InsomniaDoc) : List HoppCollection :=
  docs.flatMap (fun doc =>
    (getFoldersIn none doc.resources).map (fun f =>
      getHoppFolder doc.resources.length f doc.resources))

/-- The tagged invalid-format failure value
(`IMPORTER_INVALID_FILE_FORMAT`). -/
def IMPORTER_INVALID_FILE_FORMAT : String :=
  "importer_invalid_file_format"

/-- The sequential option-traversal performed by
`A.traverse(TO.ApplicativeSeq)(parseInsomniaDoc)`: documents are parsed
in order and the whole traversal is `none` as soon as any single parse
is. -/
def traverseParse (parse : String → Option InsomniaDoc) :
    List String → Option (List InsomniaDoc)
  | [] => some []
  | d :: ds =>
    match parse d with
    | none => none
    | some x => (traverseParse parse ds).map (fun xs => x :: xs)

/-- `hoppInsomniaImporter`: parse every document (the external
`insomnia-importers` `convert`, wrapped in `TO.tryCatch`, is the `parse`
parameter; a parse failure is `none`), map the parsed documents to
collections, and convert a failed traversal into the single
invalid-format error (`TE.fromTaskOption`). -/
def hoppInsomniaImporter (parse : String → Option InsomniaDoc)
    (fileContents : List String) : Except String (List HoppCollection) :=
  match traverseParse parse fileContents with
  | some docs => .ok (getHoppCollections docs)
  | none => .error IMPORTER_INVALID_FILE_FORMAT

/-! ## Infra-config service (`infra-config.service.ts`)

The relational store behind Prisma is embedded as an association list of
`(name, value)` rows; `prisma.infraConfig.update` succeeds only when a
row with the given name exists, and `$transaction` discards every write
when any update in it throws.  The format validators `validateSMTPUrl`,
`validateSMTPEmail` and `validateUrl` live in `src/utils`, which is not
part of the excerpt; they are abstract `String → Bool` parameters
(modelled from the spec: format-specific predicates for URL shape and
email shape). -/

/-- The `INFRA_CONFIG_INVALID_INPUT` error value. -/
def INFRA_CONFIG_INVALID_INPUT : String :=
  "infra_config_invalid_input"

/-- The `INFRA_CONFIG_UPDATE_FAILED` error value. -/
def INFRA_CONFIG_UPDATE_FAILED : String :=
  "infra_config_update_failed"

/-- The per-row dispatch of `validateEnvValues`: SMTP URL shape for
`MAILER_SMTP_URL`, email shape for `MAILER_ADDRESS_FROM`, URL shape for
the three OAuth callback URLs, non-emptiness (JS truthiness) for the
remaining listed OAuth fields, and no check (`default`) for every other
name. -/
def checkConfigValue (validateSMTPUrl validateSMTPEmail validateUrl :
    String → Bool) (name value : String) : Bool :=
  if name = "MAILER_SMTP_URL" then validateSMTPUrl value
  else if name = "MAILER_ADDRESS_FROM" then validateSMTPEmail value
  else if name = "GOOGLE_CLIENT_ID" then value ≠ ""
  else if name = "GOOGLE_CLIENT_SECRET" then value ≠ ""
  else if name = "GOOGLE_CALLBACK_URL" then validateUrl value
  else if name = "GOOGLE_SCOPE" then value ≠ ""
  else if name = "GITHUB_CLIENT_ID" then value ≠ ""
  else if name = "GITHUB_CLIENT_SECRET" then value ≠ ""
  else if name = "GITHUB_CALLBACK_URL" then validateUrl value
  else if name = "GITHUB_SCOPE" then value ≠ ""
  else if name = "MICROSOFT_CLIENT_ID" then value ≠ ""
  else if name = "MICROSOFT_CLIENT_SECRET" then value ≠ ""
  else if name = "MICROSOFT_CALLBACK_URL" then validateUrl value
  else if name = "MICROSOFT_SCOPE" then value ≠ ""
  else if name = "MICROSOFT_TENANT" then value ≠ ""
  else true

/-- `validateEnvValues`: walks the batch in order and returns
`E.left(INFRA_CONFIG_INVALID_INPUT)` at the first row failing its check,
`E.right(true)` otherwise. -/
def validateEnvValues (vSmtpUrl vEmail vUrl : String → Bool) :
    List (String × String) → Except String Bool
  | [] => .ok true
  | (n, v) :: rest =>
    if checkConfigValue vSmtpUrl vEmail vUrl n v then
      validateEnvValues vSmtpUrl vEmail vUrl rest
    else .error INFRA_CONFIG_INVALID_INPUT

/-- The sequential row updates inside `prisma.$transaction`: each
`tx.infraConfig.update({where: {name}})` throws when no row has that
name, which rolls the whole transaction back (`none`). -/
def txUpdateAll (db : List (String × String)) :
    List (String × String) → Option (List (String × String))
  | [] => some db
  | (n, v) :: rest =>
    if db.any (fun p => p.1 == n) then
      txUpdateAll (db.map (fun p => if p.1 == n then (p.1, v) else p)) rest
    else none

/-- `updateMany`: validate the whole batch first and return the
validation error untouched on failure; otherwise run every row update in
one transaction, returning the updated rows (the `stopApp()` restart side
effect is outside the model) or `INFRA_CONFIG_UPDATE_FAILED` with the
store rolled back. -/
def updateMany (vSmtpUrl vEmail vUrl : String → Bool)
    (db : List (String × String)) (infraConfigs : List (String × String)) :
    Except String (List (String × String)) × List (String × String) :=
  match validateEnvValues vSmtpUrl vEmail vUrl infraConfigs with
  | .error e => (.error e, db)
  | .ok _ =>
    match txUpdateAll db infraConfigs with
    | some db2 => (.ok infraConfigs, db2)
    | none => (.error INFRA_CONFIG_UPDATE_FAILED, db)

/-! ## Claim vocabulary and concrete example data -/

/-- A path is equal to the other path or nested under it at a segment
boundary (the subtree relation the spec's teardown contract speaks
about, as opposed to the raw `startsWith` comparison the code performs). -/
def pathEqualOrUnder (p d : String) : Bool :=
  p == d || strStartsWith p (d ++ "/")

/-- A personal tab with the given save-context folder path and request
index. -/
def tabIdx (fp : String) (i : Int) : Tab :=
  { saveContext := some (.userCollection fp i), isDirty := false,
    inheritedProperties := none }

/-- A personal tab with the given save-context folder path. -/
def tabAt (fp : String) : Tab :=
  tabIdx fp 0

/-- A workspace tab whose stored request identifier is
`"coll1/3"` under collection identifier `"coll1"`. -/
def wsTab : Tab :=
  { saveContext := some (.workspaceUserCollection "coll1" "coll1/3"),
    isDirty := false, inheritedProperties := none }

/-- A cached inherited-properties snapshot whose auth was contributed by
ancestor `"0/1"`. -/
def closeProps : HoppInheritedProperty :=
  { auth := { parentID := "0/1", parentName := "P",
              inheritedAuth := .authNone true },
    headers := [] }

/-- A tab saved at `"0/1/2"` whose cached inherited auth came from the
nearer ancestor `"0/1"`. -/
def closeTab : Tab :=
  { saveContext := some (.userCollection "0/1/2" 0), isDirty := false,
    inheritedProperties := some closeProps }

/-- A cached snapshot with header entries contributed by ancestors `"0"`
and `"1"`. -/
def hdrOldProps : HoppInheritedProperty :=
  { auth := { parentID := "", parentName := "",
              inheritedAuth := .authNone true },
    headers :=
      [{ parentID := "0", parentName := "A",
         inheritedHeader := some { key := "k", value := "v", active := true } },
       { parentID := "1", parentName := "B",
         inheritedHeader := some { key := "k2", value := "v2", active := true } }] }

/-- A freshly computed snapshot for the mutated path `"0"` carrying a new
value for the key `"k"`. -/
def hdrNewProps : HoppInheritedProperty :=
  { auth := { parentID := "0", parentName := "A",
              inheritedAuth := .basic true "u" "p" },
    headers :=
      [{ parentID := "0", parentName := "A",
         inheritedHeader := some { key := "k", value := "nv", active := true } }] }

/-- A tab carrying the cached snapshot `hdrOldProps`. -/
def hdrTab : Tab :=
  { saveContext := some (.userCollection "0/1" 0), isDirty := false,
    inheritedProperties := some hdrOldProps }

/-- A parse function (standing for the wrapped external `convert`) that
fails exactly on the document text `"bad"`. -/
def parseOneBad : String → Option InsomniaDoc :=
  fun s => if s = "bad" then none else some { resources := [] }

/-- A foreign top-level group resource. -/
def grpRes : InsomniaResource :=
  { rtype := "request_group", id := "g1", parentId := none, name := some "G",
    authentication := none, method := none, url := none, headers := none,
    parameters := none, body := none }

/-- A foreign request inside `grpRes` with basic auth and no
username/password fields. -/
def reqRes : InsomniaResource :=
  { rtype := "request", id := "r1", parentId := some "g1", name := some "R",
    authentication := some (.basic none none none), method := none,
    url := some "https://x.y", headers := none, parameters := none,
    body := none }

/-! ## Supporting lemmas -/

theorem strStartsWith_self (s : String) : strStartsWith s s = true := by
  simp [strStartsWith, List.isPrefixOf_iff_prefix]

theorem strStartsWith_of_append (p d x : String)
    (h : strStartsWith p (d ++ x) = true) : strStartsWith p d = true := by
  simp only [strStartsWith, List.isPrefixOf_iff_prefix] at h ⊢
  rw [String.data_append] at h
  exact (List.prefix_append d.data x.data).trans h

theorem strStartsWith_of_pathEqualOrUnder (p d : String)
    (h : pathEqualOrUnder p d = true) : strStartsWith p d = true := by
  simp only [pathEqualOrUnder, Bool.or_eq_true, beq_iff_eq] at h
  rcases h with h | h
  · subst h; exact strStartsWith_self p
  · exact strStartsWith_of_append p d "/" h

theorem mem_rangeIntLen (n : Nat) : ∀ (lo a : Int),
    a ∈ rangeIntLen lo n ↔ lo ≤ a ∧ a < lo + n := by
  induction n with
  | zero => intro lo a; simp [rangeIntLen]
  | succ m ih =>
    intro lo a
    simp only [rangeIntLen, List.mem_cons, ih]
    constructor
    · rintro (rfl | ⟨h1, h2⟩) <;> push_cast <;> omega
    · rintro ⟨h1, h2⟩
      by_cases ha : a = lo
      · exact Or.inl ha
      · right; push_cast at h2 ⊢; omega

theorem hasKey_rangeMapDown (n : Nat) : ∀ (lo k : Int),
    (hasKey ((rangeIntLen lo n).map (fun i => (i, i - 1))) k = true) ↔
      (lo ≤ k ∧ k < lo + n) := by
  intro lo k
  simp only [hasKey, List.any_eq_true, List.mem_map]
  constructor
  · rintro ⟨p, ⟨i, hi, rfl⟩, hbeq⟩
    simp only [beq_iff_eq] at hbeq
    subst hbeq
    exact (mem_rangeIntLen n lo i).mp hi
  · rintro hk
    exact ⟨(k, k - 1), ⟨k, (mem_rangeIntLen n lo k).mpr hk, rfl⟩, by simp⟩

theorem lookup_rangeMapDown (n : Nat) : ∀ (lo k : Int), lo ≤ k → k < lo + n →
    lookupKey ((rangeIntLen lo n).map (fun i => (i, i - 1))) k = some (k - 1) := by
  induction n with
  | zero => intro lo k h1 h2; omega
  | succ m ih =>
    intro lo k h1 h2
    simp only [rangeIntLen, List.map_cons, lookupKey]
    by_cases hk : lo = k
    · subst hk
      rw [List.find?_cons_of_pos _ (by simp)]
      rfl
    · rw [List.find?_cons_of_neg _ (by simpa using hk)]
      have := ih (lo + 1) k (by omega) (by push_cast at h2 ⊢; omega)
      simpa [lookupKey] using this

theorem eraseKey_rangeMapDown (x : Int) (n : Nat) : ∀ (lo li : Int), li < lo →
    eraseKey ((rangeIntLen lo n).map (fun i => (i, i - 1)) ++ [(li, x)]) li =
      (rangeIntLen lo n).map (fun i => (i, i - 1)) := by
  induction n with
  | zero =>
    intro lo li _
    simp [rangeIntLen, eraseKey, List.filter]
  | succ m ih =>
    intro lo li h
    simp only [rangeIntLen, List.map_cons, List.cons_append, eraseKey,
      List.filter_cons]
    have hne : (lo != li) = true := by simp; omega
    rw [if_pos hne]
    have := ih (lo + 1) li (by omega)
    simpa [eraseKey] using this

theorem buildAffected_deletion (li len : Int) (h1 : li < len) :
    buildAffectedIndexes li (-1) (some len) =
      (rangeIntLen (li + 1) (len - li).toNat).map (fun i => (i, i - 1)) := by
  unfold buildAffectedIndexes getAffectedIndexes rangeInt
  rw [if_pos rfl]
  simp only [if_pos h1]
  have harg : len + 1 - (li + 1) = len - li := by ring
  rw [harg]
  exact eraseKey_rangeMapDown len (len - li).toNat (li + 1) li (by omega)

/-! ## Claims -/

/-- Claim C1: for every call to the Reorder Resolver
(`resolveSaveContextOnRequestReorder` or
`resolveSaveContextOnCollectionReorder`) with `newIndex > lastIndex`, the
destination index is decremented by one before the affected range is
computed (the core receives `newIndex - 1`); and whenever `lastIndex`
equals `newIndex` after this adjustment, the function returns the tab
registry unchanged — no tab's save context, dirty flag or other state is
touched. -/
theorem claim1_adjust_and_noop (lastIndex newIndex0 : Int)
    (folderPath : String) (length? : Option Int) (mode : ReorderMode)
    (tabs : List Tab) :
    (newIndex0 > lastIndex →
      resolveSaveContextOnRequestReorder lastIndex folderPath newIndex0
          length? tabs =
        (if lastIndex = newIndex0 - 1 then tabs
         else resolveSaveContextOnRequestReorderCore lastIndex folderPath
           (newIndex0 - 1) length? tabs) ∧
      resolveSaveContextOnCollectionReorder lastIndex newIndex0 folderPath
          length? mode tabs =
        (if lastIndex = newIndex0 - 1 then tabs
         else resolveSaveContextOnCollectionReorderCore lastIndex
           (newIndex0 - 1) folderPath length? mode tabs)) ∧
    (adjustNewIndex lastIndex newIndex0 = lastIndex →
      resolveSaveContextOnRequestReorder lastIndex folderPath newIndex0
          length? tabs = tabs ∧
      resolveSaveContextOnCollectionReorder lastIndex newIndex0 folderPath
          length? mode tabs = tabs) := by
  constructor
  · intro h
    have ha : adjustNewIndex lastIndex newIndex0 = newIndex0 - 1 := by
      simp [adjustNewIndex, h]
    constructor
    · rw [resolveSaveContextOnRequestReorder, ha]
    · rw [resolveSaveContextOnCollectionReorder, ha]
  · intro h
    constructor
    · rw [resolveSaveContextOnRequestReorder, h, if_pos rfl]
    · rw [resolveSaveContextOnCollectionReorder, h, if_pos rfl]

/-- Claim C1 witness: moving from position 1 to position 2 adjusts the
destination to 1 = `lastIndex`, and both resolvers leave a concrete tab
registry unchanged. -/
theorem claim1_witness :
    resolveSaveContextOnRequestReorder 1 "f" 2 none [tabIdx "f" 1] =
        [tabIdx "f" 1] ∧
    resolveSaveContextOnCollectionReorder 1 2 "f" none ReorderMode.drop
        [tabIdx "f" 1] = [tabIdx "f" 1] :=
  (claim1_adjust_and_noop 1 2 "f" none ReorderMode.drop [tabIdx "f" 1]).2
    (by decide)

/-- Claim C2 counterexample: the claim states that on deletion the
affected map's key set equals `{lastIndex+1, ..., length-1}`.  For
`lastIndex = 0`, `length = 2` that set is `{1}`, but the map consumed by
the resolvers is `{1 → 0, 2 → 1}`: it also carries the key `length = 2`
(one past the last valid sibling position), because the range is built
against `getAffectedIndexes(lastIndex, length)` whose inclusive range
ends at `length`. -/
theorem claim2_counterexample :
    buildAffectedIndexes 0 (-1) (some 2) = [(1, 0), (2, 1)] ∧
    hasKey (buildAffectedIndexes 0 (-1) (some 2)) 2 = true ∧
    ¬ ((2 : Int) ≤ 2 - 1) := by
  refine ⟨by decide, by decide, by decide⟩

/-- Claim C2 (amended): for every deletion (`newIndex === -1`) with
sibling count `length` provided, the affected map consumed by the Reorder
Resolver has key set exactly `{lastIndex+1, ..., length}`, each key
mapped to one less than itself, and `lastIndex` itself is absent from the
mapping (its entry is removed after the range is computed). -/
theorem claim2_deletion_map (lastIndex len : Int) (_h0 : 0 ≤ lastIndex)
    (h1 : lastIndex < len) :
    (∀ k, hasKey (buildAffectedIndexes lastIndex (-1) (some len)) k = true ↔
      lastIndex + 1 ≤ k ∧ k ≤ len) ∧
    (∀ k, lastIndex + 1 ≤ k → k ≤ len →
      lookupKey (buildAffectedIndexes lastIndex (-1) (some len)) k =
        some (k - 1)) ∧
    hasKey (buildAffectedIndexes lastIndex (-1) (some len)) lastIndex =
      false := by
  rw [buildAffected_deletion lastIndex len h1]
  have hcast : ((len - lastIndex).toNat : Int) = len - lastIndex := by omega
  refine ⟨fun k => ?_, fun k hk1 hk2 => ?_, ?_⟩
  · rw [hasKey_rangeMapDown]
    rw [hcast]
    omega
  · exact lookup_rangeMapDown _ _ k hk1 (by rw [hcast]; omega)
  · rw [Bool.eq_false_iff]
    intro hcon
    have := (hasKey_rangeMapDown _ _ _).mp hcon
    omega

/-- Claim C2 witness: deleting position 0 among 2 siblings yields a map
with key 2 present (mapped to 1), key 2 mapped to one less than itself,
and key 0 (`lastIndex`) absent. -/
theorem claim2_witness :
    hasKey (buildAffectedIndexes 0 (-1) (some 2)) 2 = true ∧
    lookupKey (buildAffectedIndexes 0 (-1) (some 2)) 2 = some 1 ∧
    hasKey (buildAffectedIndexes 0 (-1) (some 2)) 0 = false :=
  ⟨((claim2_deletion_map 0 2 (by decide) (by decide)).1 2).mpr (by omega),
   (claim2_deletion_map 0 2 (by decide) (by decide)).2.1 2 (by omega) (by omega),
   (claim2_deletion_map 0 2 (by decide) (by decide)).2.2⟩

/-- Claim C3 counterexample: the claim's frame condition says a tab whose
save-context path lies outside the deleted subtree keeps its save context
unchanged; but the teardown matches by raw string prefix, so deleting
path `"0/1"` also clears the tab saved at `"0/10"`, which is not equal to
nor nested under `"0/1"`. -/
theorem claim3_counterexample :
    pathEqualOrUnder "0/10" "0/1" = false ∧
    resetSaveContextForAffectedRequests "0/1" [tabAt "0/10"] =
      [{ saveContext := none, isDirty := true, inheritedProperties := none }] :=
  ⟨by decide, by decide⟩

/-- Claim C3 (amended): on deletion of a collection (`newIndex === -1`,
mode `"remove"`) the resolver runs the teardown before the reindexing
pass; the teardown clears the save context to `none` and sets the dirty
flag on every tab whose save-context path is equal to or nested under the
deleted path; and a tab whose save-context path does not have the deleted
path as a raw string prefix (for example `"0/2"` when `"0/1"` is deleted)
is left unchanged by the teardown.  (Tabs outside the subtree whose paths
merely extend the deleted path textually, such as `"0/10"`, are also torn
down — see the counterexample.) -/
theorem claim3_teardown (lastIndex : Int) (folderPath : String)
    (length? : Option Int) (tabs : List Tab) (d : String) (t : Tab)
    (p : String) :
    (0 ≤ lastIndex →
      resolveSaveContextOnCollectionReorder lastIndex (-1) folderPath
          length? ReorderMode.remove tabs =
        collReorderReindex
          (affectedPathsOf folderPath
            (buildAffectedIndexes lastIndex (-1) length?))
          (resetSaveContextForAffectedRequests
            (deletedPathOf folderPath lastIndex) tabs)) ∧
    (ctxPathFor Workspace.personal t = some p →
      pathEqualOrUnder p d = true →
        (resetTabStep d t).saveContext = none ∧
        (resetTabStep d t).isDirty = true) ∧
    (ctxPathFor Workspace.personal t = some p →
      strStartsWith p d = false → resetTabStep d t = t) := by
  refine ⟨fun h0 => ?_, fun hp hu => ?_, fun hp hn => ?_⟩
  · have ha : adjustNewIndex lastIndex (-1) = -1 := by
      simp only [adjustNewIndex]
      rw [if_neg (by omega)]
    rw [resolveSaveContextOnCollectionReorder]
    simp only [ha]
    rw [if_neg (by omega), resolveSaveContextOnCollectionReorderCore]
    simp
  · have hs := strStartsWith_of_pathEqualOrUnder p d hu
    cases hsc : t.saveContext with
    | none => simp [ctxPathFor, hsc] at hp
    | some sc =>
      cases sc with
      | userCollection fp idx =>
        simp only [ctxPathFor, hsc, Option.some.injEq] at hp
        subst hp
        simp [resetTabStep, resetMatches, hsc, hs]
      | workspaceUserCollection cid rid =>
        simp only [ctxPathFor, hsc, Option.some.injEq] at hp
        subst hp
        simp [resetTabStep, resetMatches, hsc, hs]
      | teamCollection cid rid =>
        simp [ctxPathFor, hsc] at hp
  · cases hsc : t.saveContext with
    | none => simp [ctxPathFor, hsc] at hp
    | some sc =>
      cases sc with
      | userCollection fp idx =>
        simp only [ctxPathFor, hsc, Option.some.injEq] at hp
        subst hp
        simp [resetTabStep, resetMatches, hsc, hn]
      | workspaceUserCollection cid rid =>
        simp only [ctxPathFor, hsc, Option.some.injEq] at hp
        subst hp
        simp [resetTabStep, resetMatches, hsc, hn]
      | teamCollection cid rid =>
        simp [ctxPathFor, hsc] at hp

/-- Claim C3 witness: deleting path `"0/1"`, a tab saved under
`"0/1/2"` has its context cleared and dirty flag set by the teardown,
while the tab saved at `"0/2"` is untouched. -/
theorem claim3_witness :
    (resetTabStep "0/1" (tabAt "0/1/2")).saveContext = none ∧
    (resetTabStep "0/1" (tabAt "0/1/2")).isDirty = true ∧
    resetTabStep "0/1" (tabAt "0/2") = tabAt "0/2" :=
  ⟨((claim3_teardown 1 "0" (some 2) [] "0/1" (tabAt "0/1/2") "0/1/2").2.1
      rfl (by decide)).1,
   ((claim3_teardown 1 "0" (some 2) [] "0/1" (tabAt "0/1/2") "0/1/2").2.1
      rfl (by decide)).2,
   (claim3_teardown 1 "0" (some 2) [] "0/1" (tabAt "0/2") "0/2").2.2
      rfl (by decide)⟩

/-- Claim C10: save-context teardown compares paths by raw string prefix
without a path-segment boundary: deleting collection path `"0/1"`
(folder path `"0"`, last index 1, mode `"remove"`) clears the save
context and sets the dirty flag of a tab whose save-context folder path
is `"0/10"`, although `"0/10"` is not equal to nor nested under
`"0/1"`. -/
theorem claim10_raw_prefix_teardown :
    pathEqualOrUnder "0/10" "0/1" = false ∧
    resetMatches "0/1" (tabAt "0/10") = true ∧
    resolveSaveContextOnCollectionReorder 1 (-1) "0" (some 11)
        ReorderMode.remove [tabAt "0/10"] =
      [{ saveContext := none, isDirty := true, inheritedProperties := none }] :=
  ⟨by decide, by decide, by decide⟩

/-- Claim C4 counterexample: reordering requests under folder
`"coll1"` (move position 3 to position 1), a workspace-relative tab whose
stored request identifier is `"coll1/3"` matches the selection predicate
(collection-identifier prefix equals the folder path and the trailing
segment 3 is a key of the map, mapped to 1), yet the resolver returns it
unchanged — the trailing positional segment is never rewritten. -/
theorem claim4_counterexample :
    reqReorderMatches "coll1" (buildAffectedIndexes 3 1 none) wsTab = true ∧
    lookupKey (buildAffectedIndexes 3 1 none) 3 = some 1 ∧
    resolveSaveContextOnRequestReorder 3 "coll1" 1 none [wsTab] = [wsTab] :=
  ⟨by decide, by decide, by decide⟩

/-- Claim C4 (amended): for a request-level reorder, tabs with
workspace-relative save contexts (`"workspace-user-collection"`) are
matched by the selection predicate but never modified — the mutation
loop handles only personal (`"user-collection"`) tabs, rewriting their
`requestIndex` to the mapped new index when the folder path matches and
the index is a key of the affected map. -/
theorem claim4_request_reorder (lastIndex newIndex0 : Int)
    (folderPath : String) (length? : Option Int) (tabs : List Tab)
    (t : Tab) (m : List (Int × Int)) :
    (resolveSaveContextOnRequestReorder lastIndex folderPath newIndex0
        length? tabs =
      if lastIndex = adjustNewIndex lastIndex newIndex0 then tabs
      else tabs.map (reqReorderStep folderPath
        (buildAffectedIndexes lastIndex
          (adjustNewIndex lastIndex newIndex0) length?))) ∧
    (∀ cid rid, t.saveContext = some (.workspaceUserCollection cid rid) →
      reqReorderStep folderPath m t = t) ∧
    (∀ fp idx ni, t.saveContext = some (.userCollection fp idx) →
      fp = folderPath → lookupKey m idx = some ni →
      reqReorderStep folderPath m t =
        { t with saveContext := some (.userCollection fp ni) }) ∧
    (reqReorderMatches folderPath m t = false →
      reqReorderStep folderPath m t = t) := by
  refine ⟨rfl, fun cid rid hsc => ?_, fun fp idx ni hsc hfp hl => ?_,
    fun hm => ?_⟩
  · rw [reqReorderStep, hsc]
    cases hq : reqReorderMatches folderPath m t <;> simp
  · have hk : hasKey m idx = true := by
      rw [hasKey, List.any_eq_true]
      rcases hfind : m.find? (fun p => p.1 == idx) with _ | q
      · rw [lookupKey, hfind] at hl; simp at hl
      · have := List.find?_some hfind
        exact ⟨q, List.mem_of_find?_eq_some hfind, this⟩
    have hmt : reqReorderMatches folderPath m t = true := by
      rw [reqReorderMatches, hsc]
      simp [hfp, hk]
    rw [reqReorderStep, hmt, if_pos rfl, hsc]
    simp [hl]
  · rw [reqReorderStep, hm]
    simp

/-- Claim C4 witness: in the same concrete reorder, a personal tab with
request index 2 under folder `"f"` is rewritten to the mapped index 3,
while a workspace tab is returned unchanged. -/
theorem claim4_witness :
    reqReorderStep "coll1" (buildAffectedIndexes 3 1 none) wsTab = wsTab ∧
    reqReorderStep "f" (buildAffectedIndexes 3 1 none) (tabIdx "f" 2) =
      { tabIdx "f" 2 with saveContext := some (.userCollection "f" 3) } :=
  ⟨(claim4_request_reorder 3 1 "coll1" none [] wsTab
      (buildAffectedIndexes 3 1 none)).2.1 "coll1" "coll1/3" rfl,
   (claim4_request_reorder 3 1 "f" none [] (tabIdx "f" 2)
      (buildAffectedIndexes 3 1 none)).2.2.1 "f" 2 3 rfl rfl (by decide)⟩

theorem folderPathClose_eq_newPath_iff (cur : Option String)
    (newPath ctx : String) :
    newPath = folderPathCloseToSaveContext cur newPath ctx ↔
      ¬ ∃ c, cur = some c ∧ c ≠ "" ∧
        matchCount c ctx > matchCount newPath ctx := by
  cases cur with
  | none => simp [folderPathCloseToSaveContext]
  | some c =>
    by_cases hc : c = ""
    · subst hc
      simp [folderPathCloseToSaveContext]
    · rw [folderPathCloseToSaveContext]
      by_cases hgt : matchCount c ctx > matchCount newPath ctx
      · rw [if_neg hc, if_pos hgt]
        constructor
        · intro heq
          exfalso
          rw [heq] at hgt
          omega
        · intro hna
          exact absurd ⟨c, rfl, hc, hgt⟩ hna
      · rw [if_neg hc, if_neg hgt]
        constructor
        · rintro - ⟨c', hc', hne, hgt'⟩
          rw [Option.some.injEq] at hc'
          subst hc'
          exact hgt hgt'
        · intro _
          rfl

/-- Claim C5: during inherited-auth propagation for a mutated path,
among open tabs nested under that path (raw-prefix selection on the
tab's save-context path), exactly those tabs whose currently cached
inherited-auth source path is not strictly closer to the tab's own
save-context path than the mutated path are auth-affected and get their
inherited-properties object replaced by the new snapshot; closeness is
computed by `matchCount`, counting matching path segments
position-by-position from the root, more matching segments winning and
ties favoring the new (mutated) path. -/
theorem claim5_auth_closeness (ws : Workspace) (path : String)
    (props : HoppInheritedProperty) (tabs : List Tab) (t : Tab)
    (p : String) :
    (updateInheritedPropertiesForAffectedRequests path props ws tabs =
      tabs.map (propagateStep path props ws)) ∧
    (propagateStep path props ws t =
      (let t1 :=
        if authEffected ws path t
        then { t with inheritedProperties := some props } else t
       if headerEffected ws path t
       then applyHeaderRefresh path props t1 else t1)) ∧
    (ctxPathFor ws t = some p →
      (authEffected ws path t = true ↔
        strStartsWith p path = true ∧
          ¬ ∃ c, cachedAuthParent t = some c ∧ c ≠ "" ∧
            matchCount c p > matchCount path p)) := by
  refine ⟨rfl, rfl, fun hp => ?_⟩
  have key := folderPathClose_eq_newPath_iff (cachedAuthParent t) path p
  simp only [authEffected, propagatorDomain, authFilter, hp,
    Bool.and_eq_true, beq_iff_eq]
  constructor
  · rintro ⟨h1, -, h3⟩
    exact ⟨h1, key.mp h3⟩
  · rintro ⟨h1, h2⟩
    exact ⟨h1, h1, key.mpr h2⟩

/-- Claim C5 witness: a tab saved at `"0/1/2"` whose cached inherited
auth came from `"0/1"` is not auth-affected when the farther ancestor
`"0"` is mutated (the cached source has 2 matching segments against the
save-context path, the mutated path only 1). -/
theorem claim5_witness :
    (authEffected Workspace.personal "0" closeTab = true ↔
      strStartsWith "0/1/2" "0" = true ∧
        ¬ ∃ c, cachedAuthParent closeTab = some c ∧ c ≠ "" ∧
          matchCount c "0/1/2" > matchCount "0" "0/1/2") ∧
    authEffected Workspace.personal "0" closeTab = false :=
  ⟨(claim5_auth_closeness Workspace.personal "0" closeProps [] closeTab
      "0/1/2").2.2 rfl,
   by decide⟩

/-- Claim C6: inherited-header propagation is independent of the auth
closeness check — the header filter looks only at the cached
inherited-header list (replacing the cached auth leaves it unchanged);
for a tab whose cached list contains an entry tagged with the mutated
path, the header pass maps the list through `refreshHeaderEntry`, which
replaces exactly the entries whose `parentID` equals the path with the
key-matched payload of the new header list and returns every entry
tagged with a different ancestor path unchanged. -/
theorem claim6_header_refresh (path : String)
    (newProps : HoppInheritedProperty) (t : Tab)
    (p : HoppInheritedProperty) :
    (t.inheritedProperties = some p →
      headerFilter path t = p.headers.any (fun h => h.parentID == path) ∧
      (applyHeaderRefresh path newProps t).inheritedProperties =
        some { p with
          headers := p.headers.map (refreshHeaderEntry path newProps) } ∧
      (applyHeaderRefresh path newProps t).saveContext = t.saveContext ∧
      (applyHeaderRefresh path newProps t).isDirty = t.isDirty) ∧
    (∀ h : InheritedHeaderEntry, h.parentID ≠ path →
      refreshHeaderEntry path newProps h = h) ∧
    (∀ h : InheritedHeaderEntry, h.parentID = path →
      (refreshHeaderEntry path newProps h).inheritedHeader =
        (newProps.headers.find? (fun nh =>
          nh.inheritedHeader.map (fun x => x.key) ==
            h.inheritedHeader.map (fun x => x.key))).bind
          (fun nh => nh.inheritedHeader) ∧
      (refreshHeaderEntry path newProps h).parentID = h.parentID ∧
      (refreshHeaderEntry path newProps h).parentName = h.parentName) ∧
    (∀ a : InheritedAuth,
      headerFilter path
        { t with inheritedProperties :=
            t.inheritedProperties.map (fun q => { q with auth := a }) } =
        headerFilter path t) := by
  refine ⟨fun hp => ?_, fun h hne => ?_, fun h he => ?_, fun a => ?_⟩
  · refine ⟨?_, ?_, ?_, ?_⟩ <;> simp [headerFilter, applyHeaderRefresh, hp]
  · simp [refreshHeaderEntry, hne]
  · refine ⟨?_, ?_, ?_⟩ <;> simp [refreshHeaderEntry, he]
  · cases hq : t.inheritedProperties <;> simp [headerFilter, hq]

/-- Claim C6 witness: for a tab whose cached list has entries tagged
`"0"` and `"1"`, propagating new properties for path `"0"` refreshes the
whole list through `refreshHeaderEntry`, and the entry tagged `"1"` is
returned unchanged by it. -/
theorem claim6_witness :
    (applyHeaderRefresh "0" hdrNewProps hdrTab).inheritedProperties =
      some { hdrOldProps with
        headers := hdrOldProps.headers.map (refreshHeaderEntry "0" hdrNewProps) } ∧
    refreshHeaderEntry "0" hdrNewProps
        { parentID := "1", parentName := "B",
          inheritedHeader := some { key := "k2", value := "v2", active := true } } =
      { parentID := "1", parentName := "B",
        inheritedHeader := some { key := "k2", value := "v2", active := true } } :=
  ⟨((claim6_header_refresh "0" hdrNewProps hdrTab hdrOldProps).1 rfl).2.1,
   (claim6_header_refresh "0" hdrNewProps hdrTab hdrOldProps).2.1
     { parentID := "1", parentName := "B",
       inheritedHeader := some { key := "k2", value := "v2", active := true } }
     (by decide)⟩

theorem traverseParse_eq_none_iff (parse : String → Option InsomniaDoc)
    (l : List String) :
    traverseParse parse l = none ↔ ∃ d ∈ l, parse d = none := by
  induction l with
  | nil => simp [traverseParse]
  | cons d ds ih =>
    rw [traverseParse]
    cases hp : parse d with
    | none =>
      constructor
      · intro _
        exact ⟨d, List.mem_cons_self d ds, hp⟩
      · intro _
        rfl
    | some x =>
      constructor
      · intro h
        have hnone : traverseParse parse ds = none := by
          rcases hq : traverseParse parse ds with _ | v
          · rfl
          · rw [hq] at h
            simp at h
        rcases ih.mp hnone with ⟨e, he, hpe⟩
        exact ⟨e, List.mem_cons_of_mem d he, hpe⟩
      · rintro ⟨e, he, hpe⟩
        rcases List.mem_cons.mp he with rfl | he'
        · rw [hp] at hpe
          simp at hpe
        · rw [ih.mpr ⟨e, he', hpe⟩]
          rfl

/-- Claim C7 counterexample: the claim says failures are per-document
and one malformed document does not cause the whole batch to be
rejected.  With a parse function failing only on `"bad"`, the batch
`["good"]` imports fine, but the batch `["good", "bad"]` is rejected
whole with the single invalid-format error — the parseable document's
collections are not returned. -/
theorem claim7_counterexample :
    parseOneBad "good" = some { resources := [] } ∧
    hoppInsomniaImporter parseOneBad ["good"] = .ok [] ∧
    hoppInsomniaImporter parseOneBad ["good", "bad"] =
      .error IMPORTER_INVALID_FILE_FORMAT :=
  ⟨rfl, rfl, rfl⟩

/-- Claim C7 (amended): the batch importer has no partial-success mode,
but the sequencing is all-or-nothing, not per-document: the batch is
rejected (with the single invalid-format error) exactly when at least
one input document fails to parse, and succeeds with the mapped
collections exactly when every document parses. -/
theorem claim7_batch_all_or_nothing (parse : String → Option InsomniaDoc)
    (fileContents : List String) :
    (hoppInsomniaImporter parse fileContents =
        .error IMPORTER_INVALID_FILE_FORMAT ↔
      ∃ d ∈ fileContents, parse d = none) ∧
    (∀ docs, traverseParse parse fileContents = some docs →
      hoppInsomniaImporter parse fileContents =
        .ok (getHoppCollections docs)) := by
  constructor
  · rw [hoppInsomniaImporter]
    rcases hq : traverseParse parse fileContents with _ | docs
    · exact ⟨fun _ => (traverseParse_eq_none_iff parse fileContents).mp hq,
        fun _ => rfl⟩
    · constructor
      · intro h
        simp at h
      · intro hex
        rw [(traverseParse_eq_none_iff parse fileContents).mpr hex] at hq
        simp at hq
  · intro docs hd
    rw [hoppInsomniaImporter, hd]

/-- Claim C7 witness: the all-parse branch at a concrete input — the
single-document batch `["good"]` yields the mapped collections of its
parse result. -/
theorem claim7_witness :
    hoppInsomniaImporter parseOneBad ["good"] =
      .ok (getHoppCollections [{ resources := [] }]) :=
  (claim7_batch_all_or_nothing parseOneBad ["good"]).2
    [{ resources := [] }] (by decide)

/-- Claim C8: importing a foreign document with one top-level group
containing one request whose auth is `type: basic` with no username and
no password yields one Collection containing one Request whose auth is
`basic`, `authActive = true`, `username = ""` and `password = ""` (unset
fields default to the empty string, not absence). -/
theorem claim8_basic_auth_import :
    getHoppCollections [{ resources := [grpRes, reqRes] }] =
      [.mk "G" []
        [{ name := "R", method := "GET", endpoint := "https://x.y",
           auth := .basic true "" "", body := .nullBody, headers := [],
           params := [], preRequestScript := "", testScript := "" }]
        (.inheritAuth true) []] := by
  rfl

theorem validateEnvValues_error_iff (vS vE vU : String → Bool)
    (configs : List (String × String)) :
    validateEnvValues vS vE vU configs = .error INFRA_CONFIG_INVALID_INPUT ↔
      ∃ c ∈ configs, checkConfigValue vS vE vU c.1 c.2 = false := by
  induction configs with
  | nil => simp [validateEnvValues]
  | cons c rest ih =>
    obtain ⟨n, v⟩ := c
    rw [validateEnvValues]
    by_cases hc : checkConfigValue vS vE vU n v = true
    · rw [if_pos hc, ih]
      constructor
      · rintro ⟨e, he, hee⟩
        exact ⟨e, List.mem_cons_of_mem _ he, hee⟩
      · rintro ⟨e, he, hee⟩
        rcases List.mem_cons.mp he with rfl | he'
        · rw [hc] at hee
          simp at hee
        · exact ⟨e, he', hee⟩
    · rw [if_neg hc]
      exact ⟨fun _ => ⟨(n, v), List.mem_cons_self _ _,
        Bool.not_eq_true _ ▸ hc⟩, fun _ => rfl⟩

/-- Claim C9: for every batch config update, all values are validated
per-field (URL shape, email shape, non-emptiness — the format predicates
are parameters standing for the `src/utils` validators) before any
persistence write: the batch fails validation exactly when some row fails
its per-field check, and on any validation error `updateMany` returns
that invalid-input error with the config store untouched (no partial
writes). -/
theorem claim9_validation_aborts (vS vE vU : String → Bool)
    (db configs : List (String × String)) :
    (validateEnvValues vS vE vU configs =
        .error INFRA_CONFIG_INVALID_INPUT ↔
      ∃ c ∈ configs, checkConfigValue vS vE vU c.1 c.2 = false) ∧
    (∀ e, validateEnvValues vS vE vU configs = .error e →
      updateMany vS vE vU db configs = (.error e, db)) := by
  refine ⟨validateEnvValues_error_iff vS vE vU configs, fun e he => ?_⟩
  rw [updateMany, he]

/-- Claim C9 witness: with an SMTP-URL validator rejecting everything, a
one-row batch on `MAILER_SMTP_URL` returns the invalid-input error and
leaves the concrete store unchanged. -/
theorem claim9_witness :
    updateMany (fun _ => false) (fun _ => true) (fun _ => true)
        [("MAILER_SMTP_URL", "old")] [("MAILER_SMTP_URL", "x")] =
      (.error INFRA_CONFIG_INVALID_INPUT, [("MAILER_SMTP_URL", "old")]) :=
  (claim9_validation_aborts (fun _ => false) (fun _ => true) (fun _ => true)
      [("MAILER_SMTP_URL", "old")] [("MAILER_SMTP_URL", "x")]).2
    INFRA_CONFIG_INVALID_INPUT rfl
